import Mathlib

/-
Verification of the tooluse repository (tool registry, tool collections,
schema (de)serialization, schema enrichment, MCP connection teardown and
the LLM tool loop) against its natural-language specification.

The Python modules are shallowly embedded: pure functions become Lean
functions, the process-wide registry singleton becomes an explicitly
passed association list, exceptions become Except values, and the two
backend adapters are collapsed into one normalized Response/Message
model (the adapters differ only in wire format, which no claim touches).
-/

namespace Tooluse

/- ---------------------------------------------------------------
   JSON values, as the parse tree of the canonical JSON text.
   Serialization to text is injective on this tree, so losslessness
   of the string round-trip is equivalent to losslessness here.
   --------------------------------------------------------------- -/

inductive Json where
  | null
  | bool (b : Bool)
  | str (s : String)
  | num (n : Int)
  | arr (elems : List Json)
  | obj (fields : List (String × Json))

/- Python dict lookup over an association list (first binding wins,
   matching dict insert-overwrite modeled as prepend). -/
def lookupKey {α : Type} : List (String × α) → String → Option α
  | [], _ => none
  | (k, v) :: rest, key => if key = k then some v else lookupKey rest key

def Json.field : Json → String → Option Json
  | .obj fs, k => lookupKey fs k
  | _, _ => none

def Json.asStr : Json → Option String
  | .str s => some s
  | _ => none

def Json.asArr : Json → Option (List Json)
  | .arr xs => some xs
  | _ => none

/- Element-wise validation of a JSON list, failing if any element fails
   (pydantic validates every entry of a list field). -/
def parseList {α β : Type} (f : α → Option β) : List α → Option (List β)
  | [] => some []
  | x :: xs =>
    match f x, parseList f xs with
    | some y, some ys => some (y :: ys)
    | _, _ => none

/- ---------------------------------------------------------------
   schemagenerators.py: ParameterSchema / ToolSchema (pydantic models)
   --------------------------------------------------------------- -/

structure ParameterSchema where
  name : String
  param_type : String
  description : Option String := none
  enum : Option (List String) := none
  nullable : Option Bool := none
deriving DecidableEq

structure ToolSchema where
  name : String
  description : String
  parameters : List ParameterSchema
  required : List String
deriving DecidableEq

/- model_dump_json: every field is emitted, None as null. -/
def optStrJson : Option String → Json
  | none => .null
  | some s => .str s

def optStrListJson : Option (List String) → Json
  | none => .null
  | some xs => .arr (xs.map .str)

def optBoolJson : Option Bool → Json
  | none => .null
  | some b => .bool b

def ParameterSchema.to_json (p : ParameterSchema) : Json :=
  .obj [("name", .str p.name),
        ("param_type", .str p.param_type),
        ("description", optStrJson p.description),
        ("enum", optStrListJson p.enum),
        ("nullable", optBoolJson p.nullable)]

def ToolSchema.to_json (s : ToolSchema) : Json :=
  .obj [("name", .str s.name),
        ("description", .str s.description),
        ("parameters", .arr (s.parameters.map ParameterSchema.to_json)),
        ("required", .arr (s.required.map .str))]

/- pydantic validation of an optional string / string list / bool field:
   a missing key or an explicit null yields None; a wrongly typed value
   is a validation failure. -/
def parseOptStr : Option Json → Option (Option String)
  | none => some none
  | some .null => some none
  | some (.str s) => some (some s)
  | some _ => none

def parseOptStrList : Option Json → Option (Option (List String))
  | none => some none
  | some .null => some none
  | some (.arr xs) =>
    match parseList Json.asStr xs with
    | some ys => some (some ys)
    | none => none
  | some _ => none

def parseOptBool : Option Json → Option (Option Bool)
  | none => some none
  | some .null => some none
  | some (.bool b) => some (some b)
  | some _ => none

def ParameterSchema.from_json (j : Json) : Option ParameterSchema :=
  match (j.field "name").bind Json.asStr with
  | none => none
  | some name =>
    match (j.field "param_type").bind Json.asStr with
    | none => none
    | some pt =>
      match parseOptStr (j.field "description") with
      | none => none
      | some d =>
        match parseOptStrList (j.field "enum") with
        | none => none
        | some e =>
          match parseOptBool (j.field "nullable") with
          | none => none
          | some nb => some ⟨name, pt, d, e, nb⟩

/- ToolSchema.from_json: json.loads then the keyword construction with
   keys name / description / parameters / required (KeyError, i.e.
   failure, when a key is missing). -/
def ToolSchema.from_json (j : Json) : Option ToolSchema :=
  match (j.field "name").bind Json.asStr with
  | none => none
  | some name =>
    match (j.field "description").bind Json.asStr with
    | none => none
    | some desc =>
      match (j.field "parameters").bind Json.asArr with
      | none => none
      | some pj =>
        match parseList ParameterSchema.from_json pj with
        | none => none
        | some params =>
          match (j.field "required").bind Json.asArr with
          | none => none
          | some rj =>
            match parseList Json.asStr rj with
            | none => none
            | some req => some ⟨name, desc, params, req⟩

/- Reduction lemmas for key lookup on the serialized objects. -/
lemma ts_field_name (s : ToolSchema) :
    s.to_json.field "name" = some (.str s.name) := rfl

lemma ts_field_description (s : ToolSchema) :
    s.to_json.field "description" = some (.str s.description) := rfl

lemma ts_field_parameters (s : ToolSchema) :
    s.to_json.field "parameters" = some (.arr (s.parameters.map ParameterSchema.to_json)) := rfl

lemma ts_field_required (s : ToolSchema) :
    s.to_json.field "required" = some (.arr (s.required.map .str)) := rfl

lemma ps_field_name (p : ParameterSchema) :
    p.to_json.field "name" = some (.str p.name) := rfl

lemma ps_field_param_type (p : ParameterSchema) :
    p.to_json.field "param_type" = some (.str p.param_type) := rfl

lemma ps_field_description (p : ParameterSchema) :
    p.to_json.field "description" = some (optStrJson p.description) := rfl

lemma ps_field_enum (p : ParameterSchema) :
    p.to_json.field "enum" = some (optStrListJson p.enum) := rfl

lemma ps_field_nullable (p : ParameterSchema) :
    p.to_json.field "nullable" = some (optBoolJson p.nullable) := rfl

lemma parseList_map {α β : Type} (f : β → Option α) (g : α → β)
    (h : ∀ x, f (g x) = some x) : ∀ xs : List α, parseList f (xs.map g) = some xs := by
  intro xs
  induction xs with
  | nil => rfl
  | cons x xs ih => simp [parseList, h, ih]

lemma param_roundtrip (p : ParameterSchema) :
    ParameterSchema.from_json p.to_json = some p := by
  obtain ⟨name, pt, d, e, nb⟩ := p
  simp only [ParameterSchema.from_json, ps_field_name, ps_field_param_type,
    ps_field_description, ps_field_enum, ps_field_nullable, Option.bind, Json.asStr]
  cases d <;> cases e <;> cases nb <;>
    simp [parseOptStr, parseOptStrList, parseOptBool, optStrJson, optStrListJson,
      optBoolJson, parseList_map Json.asStr Json.str (fun _ => rfl)]

/-- C8: for every ToolSchema value s, deserializing the JSON serialization
of s (ToolSchema.from_json applied to s.to_json) yields s back: the
round-trip through the canonical JSON form with keys name, description,
parameters and required is lossless. -/
theorem schema_json_roundtrip (s : ToolSchema) :
    ToolSchema.from_json s.to_json = some s := by
  obtain ⟨name, desc, params, req⟩ := s
  simp only [ToolSchema.from_json, ts_field_name, ts_field_description,
    ts_field_parameters, ts_field_required, Option.bind, Json.asStr, Json.asArr]
  simp [parseList_map ParameterSchema.from_json ParameterSchema.to_json param_roundtrip,
    parseList_map Json.asStr Json.str (fun _ => rfl)]

/- ---------------------------------------------------------------
   Python runtime values and exceptions, as far as the claims need
   them.  A ValueError carries a structured message so that a raise
   site's payload (e.g. the set of unknown tool names) is preserved.
   --------------------------------------------------------------- -/

inductive PyValue where
  | none
  | bool (b : Bool)
  | int (n : Int)
  | str (s : String)
deriving DecidableEq

inductive ValueErrorMsg where
  | unknownTools (names : Finset String)
  | notInCollection (name : String)
  | notRegistered (name : String)
  | custom (msg : String)
deriving DecidableEq

inductive PyExc where
  | valueError (m : ValueErrorMsg)
  | attributeError (msg : String)
  | typeError (msg : String)
  | otherExc (msg : String)
deriving DecidableEq

/- The tool loop catches exactly (AttributeError, ValueError). -/
def PyExc.isExpected : PyExc → Bool
  | .valueError _ => true
  | .attributeError _ => true
  | _ => false

def ValueErrorMsg.render : ValueErrorMsg → String
  | .unknownTools names =>
      "Unknown tools: " ++ String.intercalate ", " (names.sort (· ≤ ·))
  | .notInCollection name => "Tool " ++ name ++ " not in this collection"
  | .notRegistered name => "Tool " ++ name ++ " not registered"
  | .custom msg => msg

/- str(e) as used by format_tool_response on the error path. -/
def PyExc.str : PyExc → String
  | .valueError m => m.render
  | .attributeError msg => msg
  | .typeError msg => msg
  | .otherExc msg => msg

/- ---------------------------------------------------------------
   mcp_adapter.py MCPToolReference and tools.py ToolRegistry.
   The registry singleton becomes an explicitly passed association
   list (register prepends, so the first binding wins, matching
   dict overwrite).  get_schema() is the stored schema: the claims
   never exercise the raw input_schema conversion.  run models the
   awaited remote call, returning a result or raising.
   --------------------------------------------------------------- -/

structure MCPToolReference where
  name : String
  description : String
  schema : ToolSchema
  run : List (String × PyValue) → Except PyExc String

abbrev Registry := List (String × MCPToolReference)

def Registry.register (reg : Registry) (t : MCPToolReference) : Registry :=
  (t.name, t) :: reg

def Registry.availableTools (reg : Registry) : Finset String :=
  (reg.map Prod.fst).toFinset

/- ToolRegistry.get: ValueError "Tool {name} not registered" on a miss. -/
def Registry.get (reg : Registry) (name : String) : Except PyExc MCPToolReference :=
  match lookupKey reg name with
  | some t => .ok t
  | none => .error (.valueError (.notRegistered name))

/- ---------------------------------------------------------------
   tools.py ToolCollection: a view (set of names) into the registry.
   --------------------------------------------------------------- -/

structure ToolCollection where
  tool_names : Finset String
deriving DecidableEq

/- ToolCollection.__init__ (llm_tooluse): tool_names or set(), then
   validation that every name is registered, raising
   ValueError "Unknown tools: {unknown}" otherwise. -/
def mkToolCollection (reg : Registry) (names? : Option (Finset String)) :
    Except PyExc ToolCollection :=
  let names := names?.getD ∅
  let unknown := names \ reg.availableTools
  if unknown = ∅ then .ok ⟨names⟩
  else .error (.valueError (.unknownTools unknown))

/- __getitem__: a straight registry lookup, no membership check. -/
def ToolCollection.getItem (reg : Registry) (_c : ToolCollection) (name : String) :
    Except PyExc MCPToolReference :=
  Registry.get reg name

/- __call__: membership in the collection first, then registry
   resolution, then execution of the reference. -/
def ToolCollection.invoke (reg : Registry) (c : ToolCollection) (name : String)
    (args : List (String × PyValue)) : Except PyExc String :=
  if name ∈ c.tool_names then
    match Registry.get reg name with
    | .ok t => t.run args
    | .error e => .error e
  else
    .error (.valueError (.notInCollection name))

/- __mul__: union of the two name sets, revalidated by the constructor. -/
def ToolCollection.mul (reg : Registry) (a b : ToolCollection) :
    Except PyExc ToolCollection :=
  mkToolCollection reg (some (a.tool_names ∪ b.tool_names))

/- The operand shapes __sub__ accepts: another collection, a set of
   names, a list of names; anything else is a TypeError. -/
inductive SubOperand where
  | coll (c : ToolCollection)
  | nameSet (s : Finset String)
  | nameList (l : List String)
  | otherShape (descr : String)

def ToolCollection.sub (reg : Registry) (a : ToolCollection) (o : SubOperand) :
    Except PyExc ToolCollection :=
  match o with
  | .coll b => mkToolCollection reg (some (a.tool_names \ b.tool_names))
  | .nameSet s => mkToolCollection reg (some (a.tool_names \ s))
  | .nameList l => mkToolCollection reg (some (a.tool_names \ l.toFinset))
  | .otherShape d => .error (.typeError ("Unsupported type for subtraction: " ++ d))

lemma mkToolCollection_ok {reg : Registry} {names : Finset String}
    (h : names ⊆ reg.availableTools) :
    mkToolCollection reg (some names) = .ok ⟨names⟩ := by
  simp [mkToolCollection, Finset.sdiff_eq_empty_iff_subset.mpr h]

/-- C5: constructing a ToolCollection from an explicit name set validates
every name against the registry: when all names are registered the
construction succeeds with exactly that name set, and otherwise it fails
with the unknown-tools ValueError whose payload is exactly the set of
missing names (each member of the payload is a requested name absent
from the registry). -/
theorem mk_collection_validates_names (reg : Registry) (names : Finset String) :
    (names ⊆ reg.availableTools → mkToolCollection reg (some names) = .ok ⟨names⟩) ∧
    (¬ names ⊆ reg.availableTools →
      mkToolCollection reg (some names) =
        .error (.valueError (.unknownTools (names \ reg.availableTools))) ∧
      (names \ reg.availableTools).Nonempty ∧
      ∀ m ∈ names \ reg.availableTools, m ∈ names ∧ m ∉ reg.availableTools) := by
  constructor
  · exact fun h => mkToolCollection_ok h
  · intro h
    have hne : names \ reg.availableTools ≠ ∅ := by
      intro hemp
      exact h (Finset.sdiff_eq_empty_iff_subset.mp hemp)
    refine ⟨?_, Finset.nonempty_iff_ne_empty.mpr hne, ?_⟩
    · simp [mkToolCollection, hne]
    · intro m hm
      exact ⟨(Finset.mem_sdiff.mp hm).1, (Finset.mem_sdiff.mp hm).2⟩

/-- C6: invoking a name through a collection checks collection membership
before any registry lookup: a non-member name fails with the
NotInCollection ValueError regardless of the registry (in particular a
name in neither the collection nor the registry fails with that same
error), while a member name that is registered resolves through the
registry and executes the tool. -/
theorem invoke_checks_membership_first (reg : Registry) (c : ToolCollection)
    (n : String) (args : List (String × PyValue)) :
    (n ∉ c.tool_names →
      ToolCollection.invoke reg c n args = .error (.valueError (.notInCollection n))) ∧
    (n ∉ c.tool_names → lookupKey reg n = none →
      ToolCollection.invoke reg c n args = .error (.valueError (.notInCollection n))) ∧
    (∀ t, n ∈ c.tool_names → lookupKey reg n = some t →
      ToolCollection.invoke reg c n args = t.run args) := by
  refine ⟨fun h => ?_, fun h _ => ?_, fun t hm hl => ?_⟩
  · simp [ToolCollection.invoke, h]
  · simp [ToolCollection.invoke, h]
  · simp [ToolCollection.invoke, hm, Registry.get, hl]

/-- C10: indexing a collection bypasses the collection's name set
entirely: the result only depends on the registry, a registered tool is
returned even for a non-member name, and the lookup fails (with the
not-registered ValueError) exactly when the name is absent from the
registry. -/
theorem getitem_ignores_collection_membership (reg : Registry)
    (c c₂ : ToolCollection) (n : String) :
    (ToolCollection.getItem reg c n = ToolCollection.getItem reg c₂ n) ∧
    (∀ t, lookupKey reg n = some t → n ∉ c.tool_names →
      ToolCollection.getItem reg c n = .ok t) ∧
    (lookupKey reg n = none →
      ToolCollection.getItem reg c n = .error (.valueError (.notRegistered n))) := by
  refine ⟨rfl, fun t hl _ => ?_, fun hl => ?_⟩
  · simp [ToolCollection.getItem, Registry.get, hl]
  · simp [ToolCollection.getItem, Registry.get, hl]

/-- C7: over registered name sets the collection algebra is plain set
algebra: union yields the union of the name sets, difference (against a
collection, a name set, or a name list) yields the set difference, union
is idempotent, (A * B) - B has name set (A minus B) which is a subset of
A's with equality exactly when A and B are disjoint, and difference on
any other operand shape fails with a TypeError. -/
theorem collection_set_algebra (reg : Registry) (a b : ToolCollection)
    (ha : a.tool_names ⊆ reg.availableTools)
    (hb : b.tool_names ⊆ reg.availableTools) :
    (ToolCollection.mul reg a b = .ok ⟨a.tool_names ∪ b.tool_names⟩) ∧
    (ToolCollection.sub reg a (.coll b) = .ok ⟨a.tool_names \ b.tool_names⟩) ∧
    (ToolCollection.mul reg a a = .ok a) ∧
    (∀ c, ToolCollection.mul reg a b = .ok c →
      ToolCollection.sub reg c (.coll b) = .ok ⟨a.tool_names \ b.tool_names⟩ ∧
      (a.tool_names \ b.tool_names) ⊆ a.tool_names ∧
      ((a.tool_names \ b.tool_names) = a.tool_names ↔
        Disjoint a.tool_names b.tool_names)) ∧
    (∀ s : Finset String,
      ToolCollection.sub reg a (.nameSet s) = .ok ⟨a.tool_names \ s⟩) ∧
    (∀ l : List String,
      ToolCollection.sub reg a (.nameList l) = .ok ⟨a.tool_names \ l.toFinset⟩) ∧
    (∀ d, ToolCollection.sub reg a (.otherShape d) =
      .error (.typeError ("Unsupported type for subtraction: " ++ d))) := by
  have hsub : ∀ s : Finset String, a.tool_names \ s ⊆ reg.availableTools :=
    fun s => (Finset.sdiff_subset).trans ha
  refine ⟨?_, ?_, ?_, ?_, ?_, ?_, ?_⟩
  · exact mkToolCollection_ok (Finset.union_subset ha hb)
  · exact mkToolCollection_ok (hsub _)
  · have : a.tool_names ∪ a.tool_names = a.tool_names := Finset.union_self _
    simpa [ToolCollection.mul, this] using mkToolCollection_ok (by simpa [this] using ha)
  · intro c hc
    have hcn : c = ⟨a.tool_names ∪ b.tool_names⟩ := by
      have huni : mkToolCollection reg (some (a.tool_names ∪ b.tool_names)) =
          .ok ⟨a.tool_names ∪ b.tool_names⟩ :=
        mkToolCollection_ok (Finset.union_subset ha hb)
      rw [ToolCollection.mul, huni] at hc
      exact (Except.ok.injEq _ _).mp hc.symm |>.symm ▸ rfl
    subst hcn
    have hdiff : (a.tool_names ∪ b.tool_names) \ b.tool_names =
        a.tool_names \ b.tool_names := by
      ext x
      simp [Finset.mem_sdiff, Finset.mem_union]
      tauto
    refine ⟨?_, Finset.sdiff_subset, Finset.sdiff_eq_self_iff_disjoint⟩
    simpa [ToolCollection.sub, hdiff] using mkToolCollection_ok (hsub _)
  · exact fun s => mkToolCollection_ok (hsub s)
  · exact fun l => mkToolCollection_ok (hsub _)
  · exact fun _ => rfl

/- ---------------------------------------------------------------
   llm.py LLMClient._tool_loop.  The vendor adapters are collapsed
   into a normalized model: a backend response carries its text and
   the already-parsed tool calls (extract_tool_calls together with
   parse_tool_call), and messages are role-tagged entries where
   format_tool_response carries the stringified output.  The model
   backend is a pure function from the message history to the next
   response; the loop's observable of interest is how many times it
   is invoked.
   --------------------------------------------------------------- -/

structure ToolCall where
  id : Option String
  name : String
  args : List (String × PyValue)
deriving DecidableEq

structure Response where
  content : String
  tool_calls : List ToolCall
deriving DecidableEq

inductive Message where
  | user (content : String)
  | assistant (content : String)
  | toolResponse (call : ToolCall) (content : String)
deriving DecidableEq

def formatToolResponse (tc : ToolCall) (output : String) : Message :=
  .toolResponse tc output

/- The per-call body of the loop, in source order: the schema lookup
   toolcollection[name].get_schema() runs before the inner try, so a
   name missing from the registry raises out of the whole turn; inside
   the try, a name not in the collection is skipped (continue, no
   message), an execution raising an expected kind (AttributeError,
   ValueError) appends the stringified error as the tool response and
   continues, any other exception propagates. -/
def processCalls (reg : Registry) (coll : ToolCollection) :
    List ToolCall → List Message → Except PyExc (List Message)
  | [], msgs => .ok msgs
  | tc :: rest, msgs =>
    match Registry.get reg tc.name with
    | .error e => .error e
    | .ok _ =>
      if tc.name ∈ coll.tool_names then
        match ToolCollection.invoke reg coll tc.name tc.args with
        | .ok output => processCalls reg coll rest (msgs ++ [formatToolResponse tc output])
        | .error e =>
          if e.isExpected then
            processCalls reg coll rest (msgs ++ [formatToolResponse tc (e.str)])
          else
            .error e
      else
        processCalls reg coll rest msgs

/- _tool_loop: call the model, append the assistant turn, and when the
   response requested tools, process them and call the model exactly
   once more.  The second component counts backend invocations. -/
def toolLoop (reg : Registry) (coll : ToolCollection)
    (callModel : List Message → Response) (messages : List Message) :
    Except PyExc Response × Nat :=
  let r1 := callModel messages
  let msgs1 := messages ++ [Message.assistant r1.content]
  if r1.tool_calls.isEmpty then
    (.ok r1, 1)
  else
    match processCalls reg coll r1.tool_calls msgs1 with
    | .error e => (.error e, 1)
    | .ok msgs2 => (.ok (callModel msgs2), 2)

/- The tool-response messages one round of calls contributes: members
   produce a success or stringified-error response, non-members none. -/
def callResponses (reg : Registry) (coll : ToolCollection)
    (calls : List ToolCall) : List Message :=
  calls.filterMap fun tc =>
    if tc.name ∈ coll.tool_names then
      match ToolCollection.invoke reg coll tc.name tc.args with
      | .ok output => some (formatToolResponse tc output)
      | .error e => some (formatToolResponse tc (e.str))
    else none

/- A requested call the loop survives: its name is registered, and if
   its invocation raises at all it raises an expected kind.  (For a
   registered name outside the collection this is automatic: the
   invocation error is the NotInCollection ValueError.) -/
def benignCallB (reg : Registry) (coll : ToolCollection) (tc : ToolCall) : Bool :=
  (lookupKey reg tc.name).isSome &&
    (match ToolCollection.invoke reg coll tc.name tc.args with
     | .ok _ => true
     | .error e => e.isExpected)

lemma processCalls_ok (reg : Registry) (coll : ToolCollection) :
    ∀ (calls : List ToolCall) (msgs : List Message),
      (∀ tc ∈ calls, benignCallB reg coll tc = true) →
      processCalls reg coll calls msgs = .ok (msgs ++ callResponses reg coll calls) := by
  intro calls
  induction calls with
  | nil => intro msgs _; simp [processCalls, callResponses]
  | cons tc rest ih =>
    intro msgs h
    have htc : benignCallB reg coll tc = true := h tc (by simp)
    have hrest : ∀ c ∈ rest, benignCallB reg coll c = true :=
      fun c hc => h c (by simp [hc])
    obtain ⟨t, hl⟩ : ∃ t, lookupKey reg tc.name = some t := by
      cases hlk : lookupKey reg tc.name with
      | some t => exact ⟨t, rfl⟩
      | none => simp [benignCallB, hlk] at htc
    by_cases hmem : tc.name ∈ coll.tool_names
    · cases hinv : ToolCollection.invoke reg coll tc.name tc.args with
      | ok output =>
        simp [processCalls, Registry.get, hl, hmem, hinv, ih _ hrest,
          callResponses, List.filterMap_cons]
      | error e =>
        have hexp : e.isExpected = true := by
          simpa [benignCallB, hl, hinv] using htc
        simp [processCalls, Registry.get, hl, hmem, hinv, hexp, ih _ hrest,
          callResponses, List.filterMap_cons]
    · simp [processCalls, Registry.get, hl, hmem, ih _ hrest,
        callResponses, List.filterMap_cons]

/-- C1: per conversation turn the model backend is re-invoked at most
once after the initial call: the invocation count never exceeds two; a
first response without tool calls finishes after the single initial
call returning that response; a turn that completes with a response
used exactly one re-invocation when and only when the first response
contained tool calls; and when every requested call is benign (name
registered, failures only of the expected caught kinds such as
ValueError, which are formatted as error tool-responses) the turn does
complete, with exactly one re-invocation. -/
theorem tool_loop_single_recall (reg : Registry) (coll : ToolCollection)
    (f : List Message → Response) (msgs : List Message) :
    ((toolLoop reg coll f msgs).2 ≤ 2) ∧
    ((f msgs).tool_calls.isEmpty = true →
      toolLoop reg coll f msgs = (.ok (f msgs), 1)) ∧
    (∀ r, (toolLoop reg coll f msgs).1 = .ok r →
      (toolLoop reg coll f msgs).2 =
        if (f msgs).tool_calls.isEmpty then 1 else 2) ∧
    ((∀ tc ∈ (f msgs).tool_calls, benignCallB reg coll tc = true) →
      (∃ r, (toolLoop reg coll f msgs).1 = .ok r) ∧
      (toolLoop reg coll f msgs).2 =
        if (f msgs).tool_calls.isEmpty then 1 else 2) := by
  by_cases hemp : (f msgs).tool_calls.isEmpty
  · refine ⟨?_, fun _ => ?_, fun r _ => ?_, fun _ => ?_⟩ <;>
      simp [toolLoop, hemp]
  · cases hp : processCalls reg coll (f msgs).tool_calls
        (msgs ++ [Message.assistant (f msgs).content]) with
    | error e =>
      refine ⟨?_, fun h => absurd h hemp, fun r hr => ?_, fun hben => ?_⟩
      · simp [toolLoop, hemp, hp]
      · simp [toolLoop, hemp, hp] at hr
      · rw [processCalls_ok reg coll _ _ hben] at hp
        exact absurd hp (by simp)
    | ok msgs2 =>
      refine ⟨?_, fun h => absurd h hemp, fun r _ => ?_, fun _ => ?_⟩
      · simp [toolLoop, hemp, hp]
      · simp [toolLoop, hemp, hp]
      · exact ⟨⟨f msgs2, by simp [toolLoop, hemp, hp]⟩, by simp [toolLoop, hemp, hp]⟩

/-- C3 (amended): skip-and-continue holds for names that are registered
but excluded from the collection: when every requested name is
registered (and member invocations fail only with the expected caught
kinds), the turn completes with the final re-invocation, each call
round appends exactly the responses of the processed calls, and calls
whose name is not in the collection contribute no message (they are as
if filtered out); but a requested name absent from the registry makes
the schema lookup raise before the membership check, aborting the turn
with the not-registered ValueError. -/
theorem skip_registered_nonmember_calls (reg : Registry) (coll : ToolCollection)
    (f : List Message → Response) (msgs : List Message) :
    ((∀ tc ∈ (f msgs).tool_calls, benignCallB reg coll tc = true) →
      (∃ r, (toolLoop reg coll f msgs).1 = .ok r) ∧
      ((f msgs).tool_calls ≠ [] → (toolLoop reg coll f msgs).2 = 2)) ∧
    (∀ (calls : List ToolCall) (msgs0 : List Message),
      (∀ tc ∈ calls, benignCallB reg coll tc = true) →
      processCalls reg coll calls msgs0 = .ok (msgs0 ++ callResponses reg coll calls)) ∧
    (∀ calls : List ToolCall,
      callResponses reg coll calls =
        callResponses reg coll
          (calls.filter fun tc => decide (tc.name ∈ coll.tool_names))) ∧
    (∀ tc rest, (f msgs).tool_calls = tc :: rest → lookupKey reg tc.name = none →
      (toolLoop reg coll f msgs).1 = .error (.valueError (.notRegistered tc.name))) := by
  refine ⟨fun hben => ?_, fun calls msgs0 h => processCalls_ok reg coll calls msgs0 h, ?_, ?_⟩
  · by_cases hemp : (f msgs).tool_calls.isEmpty
    · exact ⟨⟨f msgs, by simp [toolLoop, hemp]⟩, fun hne => absurd (List.isEmpty_iff.mp hemp) hne⟩
    · rw [show (toolLoop reg coll f msgs) = (.ok (f ((msgs ++ [Message.assistant (f msgs).content]) ++ callResponses reg coll (f msgs).tool_calls)), 2) from ?_]
      · exact ⟨⟨_, rfl⟩, fun _ => rfl⟩
      · simp [toolLoop, hemp, processCalls_ok reg coll _ _ hben]
  · intro calls
    induction calls with
    | nil => rfl
    | cons tc rest ih =>
      simp only [callResponses] at ih ⊢
      by_cases hmem : tc.name ∈ coll.tool_names
      · cases hinv : ToolCollection.invoke reg coll tc.name tc.args with
        | ok output => simp [List.filterMap_cons, List.filter_cons, hmem, hinv, ih]
        | error e => simp [List.filterMap_cons, List.filter_cons, hmem, hinv, ih]
      · simp [List.filterMap_cons, List.filter_cons, hmem, ih]
  · intro tc rest heq hl
    have hne : (f msgs).tool_calls.isEmpty = false := by simp [heq]
    simp [toolLoop, hne, heq, processCalls, Registry.get, hl]

/- ---------------------------------------------------------------
   Nullable-sentinel coercion.  Modelled from the spec: if a
   parameter is declared nullable and the supplied value is one of
   the fixed sentinel set (None, empty string, the literal textual
   tokens for null), it is coerced to an absent/null value before
   dispatch.  In llm.py this logic exists only as commented-out code
   inside _tool_loop; the definition is the spec-side behavior the
   loop is compared against.
   --------------------------------------------------------------- -/

def isNullSentinel : PyValue → Bool
  | .none => true
  | .str "" => true
  | .str "null" => true
  | .str "None" => true
  | _ => false

def specCoerceNullableSentinels (schema : ToolSchema)
    (args : List (String × PyValue)) : List (String × PyValue) :=
  args.map fun kv =>
    if (schema.parameters.any fun p => p.name == kv.1 && p.nullable == some true)
        && isNullSentinel kv.2
    then (kv.1, PyValue.none)
    else kv

/-- C2 (amended): the tool loop performs no sentinel coercion at all:
a member call of a registered tool dispatches exactly the supplied
argument list to the tool, whatever sentinel values it contains (the
coercion of nullable-parameter sentinels exists in the source only as
commented-out code). -/
theorem tool_loop_dispatches_args_unchanged (reg : Registry)
    (coll : ToolCollection) (tc : ToolCall) (t : MCPToolReference)
    (msgs : List Message)
    (hl : lookupKey reg tc.name = some t) (hmem : tc.name ∈ coll.tool_names) :
    processCalls reg coll [tc] msgs =
      (match t.run tc.args with
       | .ok output => .ok (msgs ++ [formatToolResponse tc output])
       | .error e =>
         if e.isExpected then .ok (msgs ++ [formatToolResponse tc (e.str)])
         else .error e) := by
  cases hrun : t.run tc.args with
  | ok output =>
    simp [processCalls, Registry.get, hl, hmem, ToolCollection.invoke, hrun]
  | error e =>
    by_cases hexp : e.isExpected = true <;>
      simp [processCalls, Registry.get, hl, hmem, ToolCollection.invoke, hrun, hexp]

/- ---------------------------------------------------------------
   schemagenerators.py LLMSchemaGenerator.generate_schema.  The
   reflection result is the input basic schema; the model call, the
   direct json parse and the fenced-code-block recovery parse are
   collaborators, so the embedding takes their combined outcome:
   the call raised, or nothing parseable came back, or a parsed
   object.  Of the parsed object the code reads exactly the keys
   "description", "parameters" and, per entry, "description", so the
   parse result is modeled by those optional key accesses (None =
   the key is missing, i.e. a KeyError on access).
   --------------------------------------------------------------- -/

structure EnhancedParam where
  description : Option String
deriving DecidableEq

structure Enhanced where
  description : Option String
  parameters : Option (List (String × EnhancedParam))
deriving DecidableEq

inductive ParseOutcome where
  | unparseable
  | parsed (e : Enhanced)
deriving DecidableEq

inductive LLMCallResult where
  | raises (msg : String)
  | returns (outcome : ParseOutcome)
deriving DecidableEq

/- The in-place merge loop over basic_schema.parameters.  The Bool
   records whether a KeyError was raised; either way the function
   yields the parameter list as mutated so far, because the KeyError
   handler returns the same (already partially mutated) schema
   object.  A missing "parameters" key raises at the first iteration;
   a matching entry without "description" raises before mutating that
   parameter. -/
def mergeParamLoop (eparams : Option (List (String × EnhancedParam))) :
    List ParameterSchema → List ParameterSchema × Bool
  | [] => ([], false)
  | p :: rest =>
    match eparams with
    | none => (p :: rest, true)
    | some eps =>
      match lookupKey eps p.name with
      | none =>
        let r := mergeParamLoop (some eps) rest
        (p :: r.1, r.2)
      | some ep =>
        match ep.description with
        | none => (p :: rest, true)
        | some d =>
          let r := mergeParamLoop (some eps) rest
          ({ p with description := some d } :: r.1, r.2)

/- generate_schema: every failure path returns basic_schema — but the
   description assignment precedes the parameter merge, so on a
   KeyError inside the merge the returned schema already carries the
   enriched description (the function is total: the outer catch-all
   except returns the schema rather than raising). -/
def LLMSchemaGenerator.generate_schema (basic : ToolSchema)
    (call : LLMCallResult) : ToolSchema :=
  match call with
  | .raises _ => basic
  | .returns .unparseable => basic
  | .returns (.parsed e) =>
    match e.description with
    | none => basic
    | some d =>
      { basic with
          description := d,
          parameters := (mergeParamLoop e.parameters basic.parameters).1 }

/- The non-description shape of a parameter: name, type tag, enum,
   nullability. -/
def paramShape (p : ParameterSchema) :
    String × String × Option (List String) × Option Bool :=
  (p.name, p.param_type, p.enum, p.nullable)

lemma mergeParamLoop_shape (eparams : Option (List (String × EnhancedParam))) :
    ∀ ps : List ParameterSchema,
      ((mergeParamLoop eparams ps).1).map paramShape = ps.map paramShape := by
  intro ps
  induction ps with
  | nil => cases eparams <;> rfl
  | cons p rest ih =>
    cases eparams with
    | none => rfl
    | some eps =>
      cases hlk : lookupKey eps p.name with
      | none => simpa [mergeParamLoop, hlk] using ih
      | some ep =>
        cases hd : ep.description with
        | none => simp [mergeParamLoop, hlk, hd]
        | some d => simpa [mergeParamLoop, hlk, hd, paramShape] using ih

/-- C4 (amended): the enrichment step never raises (the embedding is a
total function, mirroring the catch-all handler) and returns the
unmodified basic schema when the model call raises, when the response
is unparseable even after the fenced-code-block recovery, or when the
parsed JSON lacks the description key; but when the parsed JSON has a
description and the parameters key (or a matched entry's description
key) is missing, the returned schema carries the already-merged
description fields — a partial mutation.  In every case only
description fields are ever changed: name, required list, and each
parameter's name, type, enum and nullability are preserved. -/
theorem generate_schema_failure_scope :
    (∀ (b : ToolSchema) (m : String),
      LLMSchemaGenerator.generate_schema b (.raises m) = b) ∧
    (∀ b : ToolSchema,
      LLMSchemaGenerator.generate_schema b (.returns .unparseable) = b) ∧
    (∀ (b : ToolSchema) (e : Enhanced), e.description = none →
      LLMSchemaGenerator.generate_schema b (.returns (.parsed e)) = b) ∧
    (∀ (b : ToolSchema) (c : LLMCallResult),
      (LLMSchemaGenerator.generate_schema b c).name = b.name ∧
      (LLMSchemaGenerator.generate_schema b c).required = b.required ∧
      ((LLMSchemaGenerator.generate_schema b c).parameters).map paramShape =
        b.parameters.map paramShape) := by
  refine ⟨fun b m => rfl, fun b => rfl, fun b e hd => ?_, fun b c => ?_⟩
  · simp [LLMSchemaGenerator.generate_schema, hd]
  · match c with
    | .raises _ => exact ⟨rfl, rfl, rfl⟩
    | .returns .unparseable => exact ⟨rfl, rfl, rfl⟩
    | .returns (.parsed e) =>
      cases hd : e.description with
      | none => simp [LLMSchemaGenerator.generate_schema, hd]
      | some d =>
        simp [LLMSchemaGenerator.generate_schema, hd, mergeParamLoop_shape]

/- ---------------------------------------------------------------
   mcp_client.py MCPConnectionManager.disconnect_server /
   disconnect_all.  The only observable of a live fastmcp client the
   teardown exercises is whether its __aexit__ raises, so the
   connection map is an association list name -> raises?.  A raise is
   caught and logged, and (the deletion being after the await) the
   failing entry stays in the map.  The trace lists, in order, each
   attempted disconnect with its outcome.
   --------------------------------------------------------------- -/

def removeKey (clients : List (String × Bool)) (name : String) :
    List (String × Bool) :=
  clients.filter fun kv => kv.1 != name

def disconnectServer (clients : List (String × Bool)) (name : String) :
    List (String × Bool) × List (String × Bool) :=
  match lookupKey clients name with
  | none => (clients, [])
  | some fails =>
    if fails then (clients, [(name, true)])
    else (removeKey clients name, [(name, false)])

def disconnectAllGo (clients : List (String × Bool)) :
    List String → List (String × Bool) × List (String × Bool)
  | [] => (clients, [])
  | n :: rest =>
    let r := disconnectServer clients n
    let r2 := disconnectAllGo r.1 rest
    (r2.1, r.2 ++ r2.2)

/- disconnect_all: iterate over a snapshot of the connected names. -/
def disconnect_all (clients : List (String × Bool)) :
    List (String × Bool) × List (String × Bool) :=
  disconnectAllGo clients (clients.map Prod.fst)

lemma lookupKey_append {α : Type} (a b : List (String × α)) (k : String) :
    lookupKey (a ++ b) k =
      match lookupKey a k with
      | some v => some v
      | none => lookupKey b k := by
  induction a with
  | nil => rfl
  | cons kv rest ih =>
    by_cases h : k = kv.1 <;> simp [lookupKey, h, ih]

lemma lookupKey_eq_none {α : Type} (l : List (String × α)) (k : String)
    (h : k ∉ l.map Prod.fst) : lookupKey l k = none := by
  induction l with
  | nil => rfl
  | cons kv rest ih =>
    simp only [List.map_cons, List.mem_cons] at h
    push_neg at h
    simp [lookupKey, h.1, ih h.2]

lemma filter_ne_key {l : List (String × Bool)} {k : String}
    (h : k ∉ l.map Prod.fst) : (l.filter fun kv => kv.1 != k) = l := by
  induction l with
  | nil => rfl
  | cons kv rest ih =>
    simp only [List.map_cons, List.mem_cons] at h
    push_neg at h
    simp [List.filter_cons, (by simpa [bne] using h.1.symm : (kv.1 != k) = true), ih h.2]

lemma disconnectAllGo_spec :
    ∀ (rest pre : List (String × Bool)),
      ((pre ++ rest).map Prod.fst).Nodup →
      disconnectAllGo (pre ++ rest) (rest.map Prod.fst) =
        (pre ++ rest.filter (fun c => c.2), rest) := by
  intro rest
  induction rest with
  | nil => intro pre _; simp [disconnectAllGo]
  | cons kv rest ih =>
    intro pre hnd
    obtain ⟨k, fl⟩ := kv
    have hm : (pre.map Prod.fst ++ k :: rest.map Prod.fst).Nodup := by simpa using hnd
    obtain ⟨h1, h2, h3⟩ := List.nodup_append.mp hm
    have hnotpre : k ∉ pre.map Prod.fst := fun hmem => h3 hmem (by simp)
    have hnotrest : k ∉ rest.map Prod.fst := (List.nodup_cons.mp h2).1
    have hlook : lookupKey (pre ++ (k, fl) :: rest) k = some fl := by
      rw [lookupKey_append, lookupKey_eq_none pre k hnotpre]
      simp [lookupKey]
    cases fl with
    | true =>
      have hstep : disconnectServer (pre ++ (k, true) :: rest) k =
          (pre ++ (k, true) :: rest, [(k, true)]) := by
        simp [disconnectServer, hlook]
      have hre : pre ++ (k, true) :: rest = (pre ++ [(k, true)]) ++ rest := by simp
      have hnd2 : (((pre ++ [(k, true)]) ++ rest).map Prod.fst).Nodup := by
        rw [← hre]; exact hnd
      simp only [List.map_cons, disconnectAllGo, hstep]
      rw [hre, ih (pre ++ [(k, true)]) hnd2]
      simp [List.filter_cons]
    | false =>
      have hrm : removeKey (pre ++ (k, false) :: rest) k = pre ++ rest := by
        simp only [removeKey, List.filter_append, List.filter_cons]
        rw [filter_ne_key hnotpre, filter_ne_key hnotrest]
        simp
      have hstep : disconnectServer (pre ++ (k, false) :: rest) k =
          (pre ++ rest, [(k, false)]) := by
        simp [disconnectServer, hlook, hrm]
      have hnd2 : ((pre ++ rest).map Prod.fst).Nodup := by
        simp only [List.map_append]
        exact List.nodup_append.mpr
          ⟨h1, (List.nodup_cons.mp h2).2,
           fun _a ha hb => h3 ha (List.mem_cons_of_mem _ hb)⟩
      simp only [List.map_cons, disconnectAllGo, hstep]
      rw [ih pre hnd2]
      simp [List.filter_cons]

/-- C9: bulk teardown attempts every connection: over any connection
map (distinct names, arbitrary failure behavior) disconnect_all
returns — it never propagates a disconnect failure — its attempt trace
lists every connected server exactly once, in order, with its outcome,
and the surviving map consists of exactly the connections whose
individual disconnect raised (each failure was caught and logged while
the teardown proceeded to the remaining servers). -/
theorem disconnect_all_attempts_every_connection
    (clients : List (String × Bool)) (hnd : (clients.map Prod.fst).Nodup) :
    disconnect_all clients = (clients.filter (fun kv => kv.2), clients) := by
  simpa [disconnect_all] using disconnectAllGo_spec clients [] (by simpa using hnd)

/- ---------------------------------------------------------------
   Concrete tools and scenarios (the demo calculator shapes), used
   by the counterexamples and the witnesses.
   --------------------------------------------------------------- -/

def addSchema : ToolSchema :=
  ⟨"add", "add two integers",
   [⟨"x", "integer", none, none, none⟩, ⟨"y", "integer", none, none, none⟩],
   ["x", "y"]⟩

def addTool : MCPToolReference :=
  ⟨"add", "add two integers", addSchema, fun args =>
    match lookupKey args "x", lookupKey args "y" with
    | some (.int a), some (.int b) => .ok (toString (a + b))
    | _, _ => .error (.typeError "add needs integer x and y")⟩

def divideSchema : ToolSchema :=
  ⟨"divide", "divide a by b",
   [⟨"a", "integer", none, none, none⟩, ⟨"b", "integer", none, none, none⟩],
   ["a", "b"]⟩

def divideTool : MCPToolReference :=
  ⟨"divide", "divide a by b", divideSchema, fun args =>
    match lookupKey args "a", lookupKey args "b" with
    | some (.int a), some (.int b) =>
      if b = 0 then .error (.valueError (.custom "division by zero"))
      else .ok (toString (a / b))
    | _, _ => .error (.typeError "divide needs integer a and b")⟩

def describePyValue : PyValue → String
  | .none => "null"
  | .str "" => "empty-string"
  | .str s => s
  | .bool b => toString b
  | .int n => toString n

def echoSchema : ToolSchema :=
  ⟨"echo", "echo x back", [⟨"x", "string", none, none, some true⟩], []⟩

def echoTool : MCPToolReference :=
  ⟨"echo", "echo x back", echoSchema, fun args =>
    match lookupKey args "x" with
    | some v => .ok ("got " ++ describePyValue v)
    | none => .ok "got nothing"⟩

def mysterySchema : ToolSchema := ⟨"mystery", "a hidden tool", [], []⟩

def mysteryTool : MCPToolReference :=
  ⟨"mystery", "a hidden tool", mysterySchema, fun _ => .ok "mystery output"⟩

def demoRegistry : Registry :=
  [("add", addTool), ("divide", divideTool), ("echo", echoTool), ("mystery", mysteryTool)]

def collAddOnly : ToolCollection := ⟨{"add"}⟩

def collDivide : ToolCollection := ⟨{"divide"}⟩

def collEcho : ToolCollection := ⟨{"echo"}⟩

def collAM : ToolCollection := ⟨{"add", "mystery"}⟩

def collM : ToolCollection := ⟨{"mystery"}⟩

def divCall : ToolCall := ⟨some "t1", "divide", [("a", .int 1), ("b", .int 0)]⟩

def ghostCall : ToolCall := ⟨some "t2", "ghost", []⟩

def mysteryCall : ToolCall := ⟨some "t3", "mystery", []⟩

def addCall : ToolCall := ⟨some "t4", "add", [("x", .int 5), ("y", .int 3)]⟩

def echoCallEmpty : ToolCall := ⟨some "t5", "echo", [("x", PyValue.str "")]⟩

/- Model backends: first invocation requests tools, second concludes. -/
def divResponder : List Message → Response := fun msgs =>
  if msgs.length == 1 then ⟨"dividing", [divCall]⟩ else ⟨"done", []⟩

def ghostResponder : List Message → Response := fun msgs =>
  if msgs.length == 1 then ⟨"calling ghost", [ghostCall]⟩ else ⟨"after ghost", []⟩

def skipResponder : List Message → Response := fun msgs =>
  if msgs.length == 1 then ⟨"use tools", [mysteryCall, addCall]⟩ else ⟨"finished", []⟩

/-- C1 witness: the divide(a=1, b=0) turn — the tool raises a
ValueError, the loop formats it as an error tool-response and still
re-invokes the model exactly once, completing the turn. -/
theorem tool_loop_single_recall_witness :
    (∀ tc ∈ (divResponder [Message.user "q"]).tool_calls,
      benignCallB demoRegistry collDivide tc = true) ∧
    (∃ r, (toolLoop demoRegistry collDivide divResponder [Message.user "q"]).1 = .ok r) ∧
    (toolLoop demoRegistry collDivide divResponder [Message.user "q"]).2 =
      (if (divResponder [Message.user "q"]).tool_calls.isEmpty then 1 else 2) := by
  have hb : ∀ tc ∈ (divResponder [Message.user "q"]).tool_calls,
      benignCallB demoRegistry collDivide tc = true := by decide
  exact ⟨hb,
    ((tool_loop_single_recall demoRegistry collDivide divResponder
      [Message.user "q"]).2.2.2 hb).1,
    ((tool_loop_single_recall demoRegistry collDivide divResponder
      [Message.user "q"]).2.2.2 hb).2⟩

/-- C3 counterexample: the model requests the name "ghost", absent from
the collection and from the registry; the turn is not skipped but
aborts with the not-registered ValueError before any re-invocation
(the schema lookup raises ahead of the membership check), refuting
"the turn is never aborted because a requested name is absent from the
collection". -/
theorem unknown_name_aborts_turn_cex :
    ghostCall.name ∉ collAddOnly.tool_names ∧
    (toolLoop demoRegistry collAddOnly ghostResponder [Message.user "hi"]).1 =
      .error (.valueError (.notRegistered "ghost")) ∧
    (toolLoop demoRegistry collAddOnly ghostResponder [Message.user "hi"]).2 = 1 := by
  refine ⟨by decide, rfl, rfl⟩

/-- C3 witness: the model requests "mystery" (registered but excluded
from the collection) and then "add" (a member): the mystery call is
skipped, the add call executes, and the turn completes with the single
re-invocation. -/
theorem skip_registered_nonmember_calls_witness :
    (∀ tc ∈ (skipResponder [Message.user "q"]).tool_calls,
      benignCallB demoRegistry collAddOnly tc = true) ∧
    mysteryCall.name ∉ collAddOnly.tool_names ∧
    (∃ r, (toolLoop demoRegistry collAddOnly skipResponder [Message.user "q"]).1 = .ok r) ∧
    (toolLoop demoRegistry collAddOnly skipResponder [Message.user "q"]).2 = 2 := by
  have hb : ∀ tc ∈ (skipResponder [Message.user "q"]).tool_calls,
      benignCallB demoRegistry collAddOnly tc = true := by decide
  have h1 := (skip_registered_nonmember_calls demoRegistry collAddOnly
    skipResponder [Message.user "q"]).1 hb
  exact ⟨hb, by decide, h1.1, h1.2 (by decide)⟩

/-- C2 counterexample: the parameter x of echo is declared nullable and
the supplied value is the empty-string sentinel, yet the loop
dispatches it unchanged — the tool observes the empty string — whereas
the spec-side sentinel coercion would have delivered a null value.
This refutes the claim that the loop coerces nullable sentinels before
dispatch. -/
theorem nullable_sentinel_not_coerced_cex :
    (echoSchema.parameters.any fun p => p.name == "x" && p.nullable == some true) = true ∧
    isNullSentinel (PyValue.str "") = true ∧
    processCalls demoRegistry collEcho [echoCallEmpty] [] =
      .ok [Message.toolResponse echoCallEmpty "got empty-string"] ∧
    echoTool.run (specCoerceNullableSentinels echoSchema echoCallEmpty.args) =
      .ok "got null" := by
  refine ⟨rfl, rfl, rfl, rfl⟩

/-- C2 witness: the echo call with the empty-string sentinel reaches
the tool exactly as supplied. -/
theorem tool_loop_dispatches_args_unchanged_witness :
    lookupKey demoRegistry echoCallEmpty.name = some echoTool ∧
    echoCallEmpty.name ∈ collEcho.tool_names ∧
    processCalls demoRegistry collEcho [echoCallEmpty] [] =
      (match echoTool.run echoCallEmpty.args with
       | .ok output => .ok ([] ++ [formatToolResponse echoCallEmpty output])
       | .error e =>
         if e.isExpected then .ok ([] ++ [formatToolResponse echoCallEmpty (e.str)])
         else .error e) := by
  have hl : lookupKey demoRegistry echoCallEmpty.name = some echoTool := rfl
  have hm : echoCallEmpty.name ∈ collEcho.tool_names := by decide
  exact ⟨hl, hm,
    tool_loop_dispatches_args_unchanged demoRegistry collEcho echoCallEmpty echoTool [] hl hm⟩

/-- C4 counterexample: the parsed enrichment JSON has a description but
no parameters key — one of the claim's failure modes — and
generate_schema returns a schema different from the basic one: the
description was already overwritten when the missing key raised, so
the fallback is not the unmodified basic schema. -/
theorem enrichment_partial_mutation_cex :
    LLMSchemaGenerator.generate_schema divideSchema
        (.returns (.parsed ⟨some "enriched description", none⟩)) ≠ divideSchema ∧
    (LLMSchemaGenerator.generate_schema divideSchema
        (.returns (.parsed ⟨some "enriched description", none⟩))).description =
      "enriched description" := by
  refine ⟨by decide, rfl⟩

/-- C4 witness: a parsed response without a description key leaves the
basic schema untouched. -/
theorem generate_schema_failure_scope_witness :
    (⟨none, some []⟩ : Enhanced).description = none ∧
    LLMSchemaGenerator.generate_schema divideSchema
        (.returns (.parsed ⟨none, some []⟩)) = divideSchema := by
  exact ⟨rfl, generate_schema_failure_scope.2.2.1 divideSchema ⟨none, some []⟩ rfl⟩

/-- C5 witness: a fully registered name set constructs, a set with the
unregistered name "ghost" fails with the unknown-tools error naming
the missing names. -/
theorem mk_collection_validates_names_witness :
    ({"add"} : Finset String) ⊆ demoRegistry.availableTools ∧
    mkToolCollection demoRegistry (some {"add"}) = .ok ⟨{"add"}⟩ ∧
    ¬ ({"add", "ghost"} : Finset String) ⊆ demoRegistry.availableTools ∧
    mkToolCollection demoRegistry (some {"add", "ghost"}) =
      .error (.valueError (.unknownTools
        (({"add", "ghost"} : Finset String) \ demoRegistry.availableTools))) := by
  have h1 : ({"add"} : Finset String) ⊆ demoRegistry.availableTools := by decide
  have h2 : ¬ ({"add", "ghost"} : Finset String) ⊆ demoRegistry.availableTools := by decide
  exact ⟨h1, (mk_collection_validates_names demoRegistry {"add"}).1 h1, h2,
    ((mk_collection_validates_names demoRegistry {"add", "ghost"}).2 h2).1⟩

/-- C6 witness: "mystery" is registered but not in the collection and
fails with NotInCollection; "ghost" is in neither and fails with the
same error; the member "add" executes through the registry. -/
theorem invoke_checks_membership_first_witness :
    ("mystery" ∉ collAddOnly.tool_names) ∧
    ToolCollection.invoke demoRegistry collAddOnly "mystery" [] =
      .error (.valueError (.notInCollection "mystery")) ∧
    ("ghost" ∉ collAddOnly.tool_names) ∧
    lookupKey demoRegistry "ghost" = none ∧
    ToolCollection.invoke demoRegistry collAddOnly "ghost" [] =
      .error (.valueError (.notInCollection "ghost")) ∧
    ("add" ∈ collAddOnly.tool_names) ∧
    lookupKey demoRegistry "add" = some addTool ∧
    ToolCollection.invoke demoRegistry collAddOnly "add" addCall.args =
      addTool.run addCall.args := by
  have hm : ("mystery" : String) ∉ collAddOnly.tool_names := by decide
  have hg : ("ghost" : String) ∉ collAddOnly.tool_names := by decide
  have hgl : lookupKey demoRegistry "ghost" = none := rfl
  have ha : ("add" : String) ∈ collAddOnly.tool_names := by decide
  have hal : lookupKey demoRegistry "add" = some addTool := rfl
  exact ⟨hm,
    (invoke_checks_membership_first demoRegistry collAddOnly "mystery" []).1 hm,
    hg, hgl,
    (invoke_checks_membership_first demoRegistry collAddOnly "ghost" []).2.1 hg hgl,
    ha, hal,
    (invoke_checks_membership_first demoRegistry collAddOnly "add" addCall.args).2.2
      addTool ha hal⟩

/-- C7 witness: the algebra on the concrete collections {add, mystery}
and {mystery} over the demo registry. -/
theorem collection_set_algebra_witness :
    collAM.tool_names ⊆ demoRegistry.availableTools ∧
    collM.tool_names ⊆ demoRegistry.availableTools ∧
    ToolCollection.mul demoRegistry collAM collM =
      .ok ⟨collAM.tool_names ∪ collM.tool_names⟩ ∧
    ToolCollection.sub demoRegistry collAM (.coll collM) =
      .ok ⟨collAM.tool_names \ collM.tool_names⟩ ∧
    ToolCollection.mul demoRegistry collAM collAM = .ok collAM := by
  have h1 : collAM.tool_names ⊆ demoRegistry.availableTools := by decide
  have h2 : collM.tool_names ⊆ demoRegistry.availableTools := by decide
  obtain ⟨a, b, c, -⟩ := collection_set_algebra demoRegistry collAM collM h1 h2
  exact ⟨h1, h2, a, b, c⟩

def demoClients : List (String × Bool) := [("calc", false), ("db", true), ("sse", false)]

/-- C9 witness: of three live connections the middle one fails to
disconnect; all three are attempted and only the failing one remains. -/
theorem disconnect_all_attempts_every_connection_witness :
    (demoClients.map Prod.fst).Nodup ∧
    disconnect_all demoClients = (demoClients.filter (fun c => c.2), demoClients) := by
  have h : (demoClients.map Prod.fst).Nodup := by decide
  exact ⟨h, disconnect_all_attempts_every_connection demoClients h⟩

/-- C10 witness: indexing the add-only collection with the registered
non-member "mystery" returns the registered tool; indexing with the
unregistered "ghost" fails with the not-registered error. -/
theorem getitem_ignores_collection_membership_witness :
    lookupKey demoRegistry "mystery" = some mysteryTool ∧
    ("mystery" ∉ collAddOnly.tool_names) ∧
    ToolCollection.getItem demoRegistry collAddOnly "mystery" = .ok mysteryTool ∧
    lookupKey demoRegistry "ghost" = none ∧
    ToolCollection.getItem demoRegistry collAddOnly "ghost" =
      .error (.valueError (.notRegistered "ghost")) := by
  have hl : lookupKey demoRegistry "mystery" = some mysteryTool := rfl
  have hm : ("mystery" : String) ∉ collAddOnly.tool_names := by decide
  have hg : lookupKey demoRegistry "ghost" = none := rfl
  exact ⟨hl, hm,
    (getitem_ignores_collection_membership demoRegistry collAddOnly collAddOnly
      "mystery").2.1 mysteryTool hl hm,
    hg,
    (getitem_ignores_collection_membership demoRegistry collAddOnly collAddOnly
      "ghost").2.2 hg⟩

end Tooluse
